import Mathlib

/-!
Verification of the real-time H.264 codec/transport core of the repository.

The embedding models `H264VideoProcessor` from `src/app/video/h264.py`
(the variant in `src/app/media/h264.py` has identical control flow in the
methods modelled here), the bounded-queue disciplines used between pipeline
stages in `src/app/network/websocket.py` and `src/app/network/webrtc.py`,
and the reconnection loop of `WebSocketVideoClient._run_async`.

External codec-engine behaviour (PyAV `CodecContext.decode` / `encode`,
`VideoFrame.to_ndarray`, `CodecContext.create`) is supplied by explicit
oracle values describing the outcome of each engine call; the Python control
flow around those calls is translated faithfully, including each
`try`/`except` handler, via an explicit exception (`Except`) discipline.
-/

namespace MetaFace

/-- A Python exception kind, as distinguished by the `except` clauses of
`decode_frame` / `encode_frame`: `av.AVError` versus any other `Exception`. -/
inductive PyExn where
  | avError
  | exn
  deriving DecidableEq, Repr

/-- The (height, width) shape of an image as returned by
`frame.to_ndarray(format="rgb24")`; `shape[0]` is the height, `shape[1]`
the width. -/
structure Img where
  height : Nat
  width : Nat
  deriving DecidableEq, Repr

/-- One frame object emitted by `decoder.decode(packet)`.  `convOk` records
whether the later `frame.to_ndarray(format="rgb24")` call on it succeeds
(its failure is caught by the per-frame `except Exception: continue`). -/
structure EmittedFrame where
  convOk : Bool
  img : Img
  deriving DecidableEq, Repr

/-- Outcome of the engine call `self.decoder.decode(packet)`: a list of
emitted frames on success, or a raised `av.AVError`, or a raised exception
of any other class. -/
inductive EngineDecode where
  | emits (frames : List EmittedFrame)
  | avError
  | exn
  deriving DecidableEq, Repr

/-- Oracle for one `decode_frame` call: the decode-engine outcome, and
whether `av.CodecContext.create("h264", "r")` would succeed if the
recovery path calls `init_decoder`. -/
structure DecOracle where
  engine : EngineDecode
  reinitOk : Bool
  deriving DecidableEq, Repr

/-- The mutable state of an `H264VideoProcessor` instance
(`src/app/video/h264.py`, `__init__`, lines 14-20).  The decoder and
encoder `av.CodecContext` handles are modelled by presence only. -/
structure ProcState where
  decoder : Option Unit
  encoder : Option Unit
  frame_count : Nat
  encoder_initialized : Bool
  consecutive_decode_errors : Nat
  max_consecutive_errors : Nat
  deriving DecidableEq, Repr

/-- The state set up by `H264VideoProcessor.__init__`: no codecs, all
counters zero, error threshold 10. -/
def initState : ProcState :=
  { decoder := none
    encoder := none
    frame_count := 0
    encoder_initialized := false
    consecutive_decode_errors := 0
    max_consecutive_errors := 10 }

/-- A session state whose decoder has been initialized
(`init_decoder` run once on a fresh processor). -/
def readyState : ProcState :=
  { initState with decoder := some () }

/-- `init_decoder` (lines 22-36): release any existing decoder
(`cleanup_decoder` sets it to `None` even when the engine `create` then
fails), create a fresh decoder and reset the error counter; a failing
`create` re-raises after logging, leaving the decoder absent.  The raised
branch carries the state as mutated so far. -/
def init_decoder (s : ProcState) (createOk : Bool) :
    Except (PyExn × ProcState) ProcState :=
  let s0 : ProcState := { s with decoder := none }
  if createOk then
    .ok { s0 with decoder := some (), consecutive_decode_errors := 0 }
  else
    .error (.exn, s0)

/-- Predicate on an emitted frame: `to_ndarray` succeeds and the resulting
image passes the dimension validation
`img.shape[0] <= 0 or img.shape[1] <= 0` (lines 106-111). -/
def keepFrame (f : EmittedFrame) : Bool :=
  f.convOk && decide (0 < f.img.height) && decide (0 < f.img.width)

/-- Body of `decode_frame` inside the outer `try` (lines 67-117): the
decoder-absence guard, the minimum-size guard, the guarded engine decode
with its `av.AVError` recovery handler (error counting, threshold
reinitialization via `init_decoder` with its own catch-all, best-effort
flush below the threshold), and the frame-conversion loop.  An uncaught
exception is returned as `.error` carrying the state as mutated so far. -/
def decode_frame_body (s : ProcState) (b : List Nat) (o : DecOracle) :
    Except (PyExn × ProcState) (ProcState × List Img) :=
  if s.decoder = none then .ok (s, [])
  else if b.length < 4 then
    .ok ({ s with consecutive_decode_errors := s.consecutive_decode_errors + 1 }, [])
  else
    match o.engine with
    | .emits fs =>
        -- successful engine decode: reset the error counter (line 83),
        -- then convert and validate each emitted frame (lines 105-117)
        let kept := fs.filter keepFrame
        .ok ({ s with consecutive_decode_errors := 0,
                      frame_count := s.frame_count + kept.length },
             kept.map (·.img))
    | .avError =>
        -- broken frame: count the error (line 86)
        let s1 := { s with
          consecutive_decode_errors := s.consecutive_decode_errors + 1 }
        if s1.max_consecutive_errors ≤ s1.consecutive_decode_errors then
          -- threshold reached: reinitialize the decoder (lines 90-98);
          -- a failing init_decoder is caught and logged
          match init_decoder s1 o.reinitOk with
          | .ok s2 => .ok ({ s2 with consecutive_decode_errors := 0 }, [])
          | .error (_, s2) => .ok (s2, [])
        else
          -- below threshold: flush the decoder, exceptions suppressed
          -- (lines 100-102); the flush does not change the session state
          .ok (s1, [])
    | .exn =>
        -- a non-AVError exception from the engine escapes the inner
        -- handler (line 84 catches only av.AVError)
        .error (.exn, s)

/-- `decode_frame` (lines 58-126) with the exception discipline explicit:
the empty-input early return (line 64) sits outside the outer `try`; the
outer `except av.AVError` / `except Exception` handlers (lines 119-124)
increment the error counter and fall through to `return frames`. -/
def decode_frame_ex (s : ProcState) (b : List Nat) (o : DecOracle) :
    Except PyExn (ProcState × List Img) :=
  if b.isEmpty then .ok (s, [])
  else
    match decode_frame_body s b o with
    | .ok r => .ok r
    | .error (_, s1) =>
        .ok ({ s1 with
          consecutive_decode_errors := s1.consecutive_decode_errors + 1 }, [])

/-- `decode_frame` as the total function it is observed to be: both outer
handlers catch every exception class raised inside the `try` block. -/
def decode_frame (s : ProcState) (b : List Nat) (o : DecOracle) :
    ProcState × List Img :=
  if b.isEmpty then (s, [])
  else
    match decode_frame_body s b o with
    | .ok r => r
    | .error (_, s1) =>
        ({ s1 with
          consecutive_decode_errors := s1.consecutive_decode_errors + 1 }, [])

/-- Outcome of the engine call `self.encoder.encode(av_frame)` (or
`encoder.encode(None)` for a flush): a list of packets, each modelled by
its byte payload, or a raised exception. -/
inductive EngineEncode where
  | emits (packets : List (List Nat))
  | avError
  | exn
  deriving DecidableEq, Repr

/-- The `frame_rgb` argument of `encode_frame`: whether it `is None`, and
its `size` (total number of array elements). -/
structure EncFrame where
  isNone : Bool
  size : Nat
  deriving DecidableEq, Repr

/-- Oracle for one `encode_frame` call: whether
`av.VideoFrame.from_ndarray` succeeds, and the `encoder.encode` outcome. -/
structure EncOracle where
  fromNdarrayOk : Bool
  engine : EngineEncode
  deriving DecidableEq, Repr

/-- Body of `encode_frame` inside its `try` (lines 146-164): the
not-initialized guard, the empty-frame guard, the `from_ndarray`
conversion, the assignment `av_frame.pts = self.frame_count` (line 157),
the engine encode and the packet-collection loop.  No statement in the
body assigns to any `self` field. -/
def encode_frame_body (s : ProcState) (f : EncFrame) (o : EncOracle) :
    Except (PyExn × ProcState) (ProcState × List (List Nat)) :=
  if s.encoder = none ∨ s.encoder_initialized = false then .ok (s, [])
  else if f.isNone = true ∨ f.size = 0 then .ok (s, [])
  else if o.fromNdarrayOk = false then .error (.exn, s)
  else
    match o.engine with
    | .emits ps => .ok (s, ps)
    | .avError => .error (.avError, s)
    | .exn => .error (.exn, s)

/-- `encode_frame` (lines 143-171) with the exception discipline explicit:
the `except av.AVError` / `except Exception` handlers (lines 166-169) log
and fall through to `return packets`, and `packets` is still `[]` whenever
an exception interrupts the body. -/
def encode_frame_ex (s : ProcState) (f : EncFrame) (o : EncOracle) :
    Except PyExn (ProcState × List (List Nat)) :=
  match encode_frame_body s f o with
  | .ok r => .ok r
  | .error (_, s1) => .ok (s1, [])

/-- `encode_frame` as the total function it is observed to be. -/
def encode_frame (s : ProcState) (f : EncFrame) (o : EncOracle) :
    ProcState × List (List Nat) :=
  match encode_frame_body s f o with
  | .ok r => r
  | .error (_, s1) => (s1, [])

/-- The presentation timestamp that `encode_frame` attaches to the frame it
hands to the engine: `av_frame.pts = self.frame_count` (line 157). -/
def encode_pts (s : ProcState) : Nat :=
  s.frame_count

/-- Oracle outcome for `init_encoder`'s engine interactions:
`av.CodecContext.create("h264", "w")` may fail, or one of the subsequent
configuration assignments may fail after the encoder handle was stored. -/
inductive InitEncOutcome where
  | ok
  | failCreate
  | failConfig
  deriving DecidableEq, Repr

/-- `cleanup_encoder` (lines 197-207): if an encoder is present, flush it
(exceptions suppressed by `contextlib.suppress`), drop the handle and clear
`encoder_initialized`; total, since the outer `except Exception` catches
everything and no statement after the suppressed flush can raise. -/
def cleanup_encoder (s : ProcState) : ProcState :=
  if s.encoder.isSome then
    { s with encoder := none, encoder_initialized := false }
  else s

/-- `cleanup_decoder` (lines 186-195): if a decoder is present, flush it
(exceptions suppressed) and drop the handle; total for the same reason. -/
def cleanup_decoder (s : ProcState) : ProcState :=
  if s.decoder.isSome then { s with decoder := none } else s

/-- `cleanup` (lines 209-213): release decoder then encoder, then reset
`frame_count`; raises nothing because both sub-cleanups are total. -/
def cleanup (s : ProcState) : ProcState :=
  { cleanup_encoder (cleanup_decoder s) with frame_count := 0 }

/-- `init_encoder` (lines 38-56): release any existing encoder, create and
configure a fresh one, and set `encoder_initialized := true` only after
every configuration step succeeded; a failure re-raises after logging,
carrying the state as mutated so far (`failConfig` leaves the new handle
stored but `encoder_initialized` still false). -/
def init_encoder (s : ProcState) (o : InitEncOutcome) :
    Except (PyExn × ProcState) ProcState :=
  let s0 := if s.encoder.isSome then cleanup_encoder s else s
  match o with
  | .ok => .ok { s0 with encoder := some (), encoder_initialized := true }
  | .failCreate => .error (.exn, s0)
  | .failConfig => .error (.exn, { s0 with encoder := some () })

/-- `flush_encoder` (lines 173-184): drains the encoder when present and
initialized; every engine exception is caught and yields `[]`; the session
state is never modified. -/
def flush_encoder (s : ProcState) (o : EngineEncode) :
    ProcState × List (List Nat) :=
  if s.encoder.isSome && s.encoder_initialized then
    match o with
    | .emits ps => (s, ps)
    | .avError => (s, [])
    | .exn => (s, [])
  else (s, [])

/-- The state a fallible operation leaves behind, whether it returned or
raised: Python objects keep their mutations when a method raises. -/
def stateOf : Except (PyExn × ProcState) ProcState → ProcState
  | .ok s => s
  | .error (_, s) => s

/-- The invariant of `CodecSession.State`: `encoder_initialized` is true
only while the encoder handle is present. -/
def EncInv (s : ProcState) : Prop :=
  s.encoder_initialized = true → s.encoder.isSome = true

instance (s : ProcState) : Decidable (EncInv s) := by
  unfold EncInv; infer_instance

/-! ### Bounded frame queues between pipeline stages

Two distinct overflow disciplines appear in the source.  The WebRTC
receive queue (`src/app/network/webrtc.py`, lines 59-62) pops the oldest
element before inserting when full.  The WebSocket producer queue
(`src/app/network/websocket.py`, lines 179-186) awaits `put` with a
timeout and, when the queue stays full, drops the incoming frame and
continues.  Queues are lists with the head at the front (oldest first);
both models describe the steady overload regime in which no consumer
removes elements during the put. -/

/-- One put in `WebRTCClient.connect.on_track`:
`if self.recv_frames.full(): self.recv_frames.get_nowait()` then
`put_nowait(img)` — evict the oldest element when full, then append. -/
def putEvictOldest (cap : Nat) (q : List α) (x : α) : List α :=
  if cap ≤ q.length then q.tail ++ [x] else q ++ [x]

/-- One put in `WebSocketVideoClient._frame_producer`:
`await asyncio.wait_for(frame_queue.put(frame), timeout=1.0)`; with the
queue full and no consumer progress the wait times out, the handler logs
"Queue full, dropping frame" and `continue`s — the incoming (newest) frame
is dropped and the queue is unchanged. -/
def putDropNewest (cap : Nat) (q : List α) (x : α) : List α :=
  if q.length = cap then q else q ++ [x]

/-- Pushing a sequence of items through a put discipline, starting from a
queue state. -/
def pushAll (put : List α → α → List α) (q : List α) (xs : List α) : List α :=
  xs.foldl put q

/-! ### The reconnection loop of `WebSocketVideoClient._run_async`

`_run_async` (lines 208-315) loops `while self.max_retries == -1 or
attempt < self.max_retries`; each iteration makes one connection attempt.
We specialise to a transport that always fails to connect: every attempt
raises, is caught (lines 292-302), `attempt` is incremented, and the
client either sleeps `reconnect_delay` seconds and retries or re-raises
the failure permanently (the spec's `TransportExhausted`).  The model is
fuel-indexed so that the unlimited case (`max_retries = -1`) is expressible;
one unit of fuel bounds one loop iteration.  The result is
`some (raised, attempts, sleeps)` when the loop exits within the fuel —
`raised` tells whether it exited by raising the permanent error —
and `none` when the fuel is exhausted with the loop still running. -/
def runAlwaysFail (maxRetries : Int) : Nat → Nat → Nat →
    Option (Bool × Nat × Nat)
  | 0, _, _ => none
  | fuel + 1, attempt, sleeps =>
      if maxRetries = -1 ∨ (attempt : Int) < maxRetries then
        -- one connection attempt is made and fails; `attempt += 1`
        let attempt1 := attempt + 1
        if maxRetries = -1 ∨ (attempt1 : Int) < maxRetries then
          -- retry branch: sleep reconnect_delay, loop again
          runAlwaysFail maxRetries fuel attempt1 (sleeps + 1)
        else
          -- "Max retries reached": re-raise permanently
          some (true, attempt1, sleeps)
      else
        -- loop guard false: fall off the loop, returning normally
        some (false, attempt, sleeps)

/-! ### Sequences of decode calls -/

/-- Run a sequence of `decode_frame` calls on one session, collecting the
final state and the list returned by each call. -/
def runDecodes (s : ProcState) :
    List (List Nat × DecOracle) → ProcState × List (List Img)
  | [] => (s, [])
  | c :: cs =>
      let r := decode_frame s c.1 c.2
      let r2 := runDecodes r.1 cs
      (r2.1, r.2 :: r2.2)

/-- Whether one `decode_frame` call reaches the reinitialization branch
(line 90's condition, in the context that makes it reachable: nonempty
input, decoder present, at least 4 bytes, engine rejects the packet, and
the freshly incremented counter meets the threshold). -/
def triggersReinit (s : ProcState) (b : List Nat) (o : DecOracle) : Bool :=
  !b.isEmpty && s.decoder.isSome && decide (4 ≤ b.length)
    && (o.engine == .avError)
    && decide (s.max_consecutive_errors ≤ s.consecutive_decode_errors + 1)

/-- Number of decoder reinitializations performed over a sequence of
decode calls. -/
def reinitCount (s : ProcState) : List (List Nat × DecOracle) → Nat
  | [] => 0
  | c :: cs =>
      (if triggersReinit s c.1 c.2 then 1 else 0)
        + reinitCount (decode_frame s c.1 c.2).1 cs

/-- The oracle of a corrupt unit: the engine rejects the packet with
`av.AVError`, and a reinitialization, if attempted, succeeds. -/
def corruptO : DecOracle :=
  { engine := .avError, reinitOk := true }

/-- A session with decoder initialized and encoder initialized. -/
def encReadyState : ProcState :=
  { readyState with encoder := some (), encoder_initialized := true }

/-- A session in mid-stream use: both codecs live, nonzero counters. -/
def sessionInUse : ProcState :=
  { decoder := some ()
    encoder := some ()
    frame_count := 7
    encoder_initialized := true
    consecutive_decode_errors := 3
    max_consecutive_errors := 10 }

/-- Two frames emitted by one engine decode: one valid 2x3 image and one
with zero height (to be dropped by the dimension validation). -/
def sampleFrames : List EmittedFrame :=
  [{ convOk := true, img := { height := 2, width := 3 } },
   { convOk := true, img := { height := 0, width := 5 } }]

/-- A decode oracle whose engine call succeeds and emits `sampleFrames`. -/
def sampleDecO : DecOracle :=
  { engine := .emits sampleFrames, reinitOk := true }

/-- The `frame_rgb` argument of a normal encode call. -/
def sampleEncFrame : EncFrame :=
  { isNone := false, size := 100 }

/-- An encode oracle whose engine call succeeds and emits one packet. -/
def sampleEncO : EncOracle :=
  { fromNdarrayOk := true, engine := .emits [[1]] }

/-- An encode oracle whose engine call succeeds and emits no packet (a
low-latency encoder may legitimately buffer and emit zero packets). -/
def sampleEncONil : EncOracle :=
  { fromNdarrayOk := true, engine := .emits [] }

/-- The two views of `decode_frame` agree: the `Except`-threaded
translation always returns `.ok` of the total one. -/
theorem decode_frame_ex_eq (s : ProcState) (b : List Nat) (o : DecOracle) :
    decode_frame_ex s b o = .ok (decode_frame s b o) := by
  unfold decode_frame_ex decode_frame
  by_cases hb : b.isEmpty
  · simp [hb]
  · simp only [hb, if_false, Bool.false_eq_true]
    cases h : decode_frame_body s b o with
    | ok r => rfl
    | error e => cases e; rfl

/-- The two views of `encode_frame` agree. -/
theorem encode_frame_ex_eq (s : ProcState) (f : EncFrame) (o : EncOracle) :
    encode_frame_ex s f o = .ok (encode_frame s f o) := by
  unfold encode_frame_ex encode_frame
  cases h : encode_frame_body s f o with
  | ok r => rfl
  | error e => cases e; rfl

/-- A corrupt unit strictly below the threshold only increments the error
counter and returns `[]`. -/
theorem decode_corrupt_below (s : ProcState) (b : List Nat) (r : Bool)
    (hd : s.decoder = some ()) (hb : 4 ≤ b.length)
    (hlt : s.consecutive_decode_errors + 1 < s.max_consecutive_errors) :
    decode_frame s b { engine := .avError, reinitOk := r } =
      ({ s with consecutive_decode_errors := s.consecutive_decode_errors + 1 },
       []) := by
  have hne : b.isEmpty = false := by
    cases b with
    | nil => simp at hb
    | cons x xs => rfl
  unfold decode_frame decode_frame_body
  simp [hne, hd, Nat.not_lt.mpr hb, Nat.not_le.mpr hlt]

/-- A corrupt unit that takes the counter to the threshold reinitializes
the decoder and resets the counter to 0. -/
theorem decode_corrupt_at (s : ProcState) (b : List Nat)
    (hd : s.decoder = some ()) (hb : 4 ≤ b.length)
    (hge : s.max_consecutive_errors ≤ s.consecutive_decode_errors + 1) :
    decode_frame s b corruptO =
      ({ s with decoder := some (), consecutive_decode_errors := 0 }, []) := by
  have hne : b.isEmpty = false := by
    cases b with
    | nil => simp at hb
    | cons x xs => rfl
  unfold decode_frame decode_frame_body init_decoder corruptO
  simp [hne, hd, Nat.not_lt.mpr hb, hge]

/-- `runDecodes` distributes over list append. -/
theorem runDecodes_append (s : ProcState)
    (xs ys : List (List Nat × DecOracle)) :
    runDecodes s (xs ++ ys) =
      ((runDecodes (runDecodes s xs).1 ys).1,
       (runDecodes s xs).2 ++ (runDecodes (runDecodes s xs).1 ys).2) := by
  induction xs generalizing s with
  | nil => simp [runDecodes]
  | cons c cs ih => simp [runDecodes, ih]

/-- `reinitCount` distributes over list append. -/
theorem reinitCount_append (s : ProcState)
    (xs ys : List (List Nat × DecOracle)) :
    reinitCount s (xs ++ ys) =
      reinitCount s xs + reinitCount (runDecodes s xs).1 ys := by
  induction xs generalizing s with
  | nil => simp [reinitCount, runDecodes]
  | cons c cs ih => simp [reinitCount, runDecodes, ih]; omega

/-- Feeding `k` corrupt units while staying strictly below the threshold:
the counter ends at its start value plus `k`, every call returns `[]`, and
no reinitialization happens. -/
theorem runDecodes_corrupt_below (u : List Nat) (hu : 4 ≤ u.length) :
    ∀ (k : Nat) (s : ProcState), s.decoder = some () →
      s.consecutive_decode_errors + k < s.max_consecutive_errors →
      runDecodes s (List.replicate k (u, corruptO)) =
        ({ s with consecutive_decode_errors :=
            s.consecutive_decode_errors + k }, List.replicate k []) ∧
      reinitCount s (List.replicate k (u, corruptO)) = 0 := by
  intro k
  induction k with
  | zero =>
    intro s hd h
    refine ⟨?_, rfl⟩
    simp [runDecodes]
  | succ k ih =>
    intro s hd h
    have hne : u.isEmpty = false := by
      cases u with
      | nil => simp at hu
      | cons x xs => rfl
    have h1 : s.consecutive_decode_errors + 1 < s.max_consecutive_errors := by
      omega
    have hstep := decode_corrupt_below s u true hd hu h1
    have htr : triggersReinit s u corruptO = false := by
      unfold triggersReinit corruptO
      simp [Nat.not_le.mpr h1]
    have ihs := ih { s with consecutive_decode_errors :=
        s.consecutive_decode_errors + 1 } hd (by simp; omega)
    rw [List.replicate_succ]
    constructor
    · show runDecodes s ((u, corruptO) :: List.replicate k (u, corruptO)) = _
      rw [runDecodes]
      rw [show decode_frame s u corruptO =
        ({ s with consecutive_decode_errors :=
            s.consecutive_decode_errors + 1 }, []) from hstep]
      rw [ihs.1]
      simp [ProcState.mk.injEq, List.replicate_succ]
      omega
    · show reinitCount s ((u, corruptO) :: List.replicate k (u, corruptO)) = 0
      rw [reinitCount, htr]
      rw [show decode_frame s u corruptO =
        ({ s with consecutive_decode_errors :=
            s.consecutive_decode_errors + 1 }, []) from hstep]
      simpa using ihs.2

/-- C1: on a session with an initialized decoder and a zero error counter,
feeding exactly `max_consecutive_errors` consecutive corrupt units triggers
exactly one decoder reinitialization, after which
`consecutive_decode_errors` is 0 (and every call returned `[]`); feeding
any number of corrupt units below the threshold triggers no
reinitialization, leaves the counter at exactly that number, and every
such call returns `[]`. -/
theorem C1_auto_recovery (s : ProcState) (u : List Nat)
    (hd : s.decoder = some ()) (hc : s.consecutive_decode_errors = 0)
    (ht : 1 ≤ s.max_consecutive_errors) (hu : 4 ≤ u.length) :
    reinitCount s
        (List.replicate s.max_consecutive_errors (u, corruptO)) = 1 ∧
    (runDecodes s (List.replicate s.max_consecutive_errors
        (u, corruptO))).1.consecutive_decode_errors = 0 ∧
    (runDecodes s (List.replicate s.max_consecutive_errors
        (u, corruptO))).2 =
      List.replicate s.max_consecutive_errors ([] : List Img) ∧
    ∀ k, k < s.max_consecutive_errors →
      reinitCount s (List.replicate k (u, corruptO)) = 0 ∧
      (runDecodes s
          (List.replicate k (u, corruptO))).1.consecutive_decode_errors = k ∧
      (runDecodes s (List.replicate k (u, corruptO))).2 =
        List.replicate k ([] : List Img) := by
  obtain ⟨m, hm⟩ : ∃ m, s.max_consecutive_errors = m + 1 :=
    ⟨s.max_consecutive_errors - 1, by omega⟩
  have hbel := runDecodes_corrupt_below u hu m s hd (by omega)
  have hs1c : ({ s with consecutive_decode_errors :=
      s.consecutive_decode_errors + m } :
      ProcState).consecutive_decode_errors = m := by
    simp [hc]
  have hat := decode_corrupt_at
    { s with consecutive_decode_errors := s.consecutive_decode_errors + m }
    u hd hu (by simp; omega)
  have hne : u.isEmpty = false := by
    cases u with
    | nil => simp at hu
    | cons x xs => rfl
  have htr : triggersReinit
      { s with consecutive_decode_errors :=
        s.consecutive_decode_errors + m } u corruptO = true := by
    unfold triggersReinit corruptO
    simp [hne, hd, hu]
    omega
  have hsplit : List.replicate s.max_consecutive_errors (u, corruptO) =
      List.replicate m (u, corruptO) ++ [(u, corruptO)] := by
    rw [hm, List.replicate_succ']
  refine ⟨?_, ?_, ?_, ?_⟩
  · rw [hsplit, reinitCount_append, hbel.2, hbel.1]
    simp [reinitCount, htr]
  · rw [hsplit, runDecodes_append, hbel.1]
    simp [runDecodes, hat]
  · rw [hsplit, runDecodes_append, hbel.1]
    simp [runDecodes, hat]
    rw [hm, List.replicate_succ']
  · intro k hk
    have hb := runDecodes_corrupt_below u hu k s hd (by omega)
    refine ⟨hb.2, ?_, ?_⟩
    · rw [hb.1]
      simp [hc]
    · rw [hb.1]

/-- Witness for C1 at a concrete session and unit: the default session
(threshold 10) with an initialized decoder, fed ten 4-byte corrupt
units. -/
theorem C1_auto_recovery_witness :
    readyState.decoder = some () ∧
    readyState.consecutive_decode_errors = 0 ∧
    1 ≤ readyState.max_consecutive_errors ∧
    4 ≤ [0, 0, 0, 0].length ∧
    (reinitCount readyState
        (List.replicate readyState.max_consecutive_errors
          ([0, 0, 0, 0], corruptO)) = 1 ∧
      (runDecodes readyState
          (List.replicate readyState.max_consecutive_errors
            ([0, 0, 0, 0], corruptO))).1.consecutive_decode_errors = 0 ∧
      (runDecodes readyState
          (List.replicate readyState.max_consecutive_errors
            ([0, 0, 0, 0], corruptO))).2 =
        List.replicate readyState.max_consecutive_errors ([] : List Img) ∧
      ∀ k, k < readyState.max_consecutive_errors →
        reinitCount readyState
            (List.replicate k ([0, 0, 0, 0], corruptO)) = 0 ∧
        (runDecodes readyState
            (List.replicate k
              ([0, 0, 0, 0], corruptO))).1.consecutive_decode_errors = k ∧
        (runDecodes readyState (List.replicate k ([0, 0, 0, 0], corruptO))).2 =
          List.replicate k ([] : List Img)) :=
  ⟨rfl, rfl, by decide, by decide,
    C1_auto_recovery readyState [0, 0, 0, 0] rfl rfl (by decide) (by decide)⟩

/-- `encode_frame` never mutates the session: no statement in its body or
handlers assigns to a `self` field. -/
theorem encode_frame_fst (s : ProcState) (f : EncFrame) (o : EncOracle) :
    (encode_frame s f o).1 = s := by
  unfold encode_frame encode_frame_body
  rcases o with ⟨nd, eng⟩
  by_cases h1 : s.encoder = none ∨ s.encoder_initialized = false
  · simp [h1]
  · by_cases h2 : f.isNone = true ∨ f.size = 0
    · simp [h1, h2]
    · by_cases h3 : nd = false
      · simp [h1, h2, h3]
      · simp only [h1, h2, h3, if_neg, if_false]
        cases eng <;> simp

/-- `flush_encoder` never mutates the session. -/
theorem flush_encoder_fst (s : ProcState) (o : EngineEncode) :
    (flush_encoder s o).1 = s := by
  unfold flush_encoder
  by_cases h : s.encoder.isSome && s.encoder_initialized
  · simp only [h, if_true]
    cases o <;> rfl
  · simp [h]

/-- Folding drop-oldest puts over a queue that starts within capacity
keeps a sliding window of the most recent elements. -/
theorem pushAll_evictOldest (cap : Nat) (hcap : 0 < cap) :
    ∀ (xs q : List α), q.length ≤ cap →
      pushAll (putEvictOldest cap) q xs =
        (q ++ xs).drop (q.length + xs.length - cap) := by
  intro xs
  induction xs with
  | nil =>
    intro q hq
    simp [pushAll, Nat.sub_eq_zero_of_le hq]
  | cons x xs ih =>
    intro q hq
    show pushAll (putEvictOldest cap) (putEvictOldest cap q x) xs = _
    by_cases hfull : cap ≤ q.length
    · have hlen : q.length = cap := Nat.le_antisymm hq hfull
      obtain ⟨y, q0, rfl⟩ : ∃ y q0, q = y :: q0 := by
        cases q with
        | nil => simp at hlen; omega
        | cons y q0 => exact ⟨y, q0, rfl⟩
      have hcap1 : cap = q0.length + 1 := by simpa using hlen.symm
      rw [show putEvictOldest cap (y :: q0) x = q0 ++ [x] by
        unfold putEvictOldest; rw [if_pos hfull]; rfl]
      rw [ih (q0 ++ [x]) (by simp; omega)]
      have e1 : (q0 ++ [x]).length + xs.length - cap = xs.length := by
        simp only [List.length_append, List.length_cons, List.length_nil]
        omega
      have e2 : (y :: q0).length + (x :: xs).length - cap = xs.length + 1 := by
        simp only [List.length_cons]
        omega
      rw [e1, e2]
      show List.drop xs.length (q0 ++ [x] ++ xs) =
        List.drop (xs.length + 1) (y :: (q0 ++ x :: xs))
      rw [List.drop_succ_cons]
      simp
    · have hlt : q.length < cap := Nat.lt_of_not_le hfull
      rw [show putEvictOldest cap q x = q ++ [x] by
        unfold putEvictOldest; rw [if_neg hfull]]
      rw [ih (q ++ [x]) (by simp; omega)]
      have e1 : (q ++ [x]).length + xs.length - cap =
          q.length + (x :: xs).length - cap := by
        simp only [List.length_append, List.length_cons, List.length_nil]
        omega
      rw [e1]
      simp

/-- In the always-failing scenario with a finite positive retry budget
`r`, starting `k` iterations before exhaustion at attempt counter `a`,
the loop makes the remaining `k` attempts, sleeps between consecutive
ones, and exits by raising. -/
theorem runAlwaysFail_exhausts (r : Nat) :
    ∀ (k a sl : Nat), a + k = r → 1 ≤ k →
      runAlwaysFail (r : Int) k a sl = some (true, r, sl + (k - 1)) := by
  intro k
  induction k with
  | zero => intro a sl ha hk; omega
  | succ k ih =>
    intro a sl ha hk
    rw [runAlwaysFail]
    have h1 : ((r : Int) = -1 ∨ ((a : Int) < (r : Int))) := by omega
    rw [if_pos h1]
    by_cases h2 : ((r : Int) = -1 ∨ (((a + 1 : Nat) : Int) < (r : Int)))
    · have hk1 : 1 ≤ k := by omega
      rw [if_pos h2, ih (a + 1) (sl + 1) (by omega) hk1]
      have e : sl + 1 + (k - 1) = sl + (k + 1 - 1) := by omega
      rw [e]
    · rw [if_neg h2]
      have hk0 : k = 0 := by omega
      have har : a + 1 = r := by omega
      subst hk0
      simp [har]

/-- With `max_retries = -1` and a connection that always fails, the loop
never exits within any amount of fuel: it retries without bound and never
raises the permanent error. -/
theorem runAlwaysFail_unlimited :
    ∀ (fuel attempt sleeps : Nat),
      runAlwaysFail (-1) fuel attempt sleeps = none := by
  intro fuel
  induction fuel with
  | zero => intro a s; rfl
  | succ fuel ih =>
    intro a s
    rw [runAlwaysFail]
    rw [if_pos (Or.inl rfl), if_pos (Or.inl rfl)]
    exact ih (a + 1) (s + 1)

/-- C2 counterexample: on a session with an initialized decoder, decoding
the empty byte string (length 0 < 4) returns `[]` without raising, but the
`if not packet_data` early return (line 64) fires before the size check,
so `consecutive_decode_errors` stays 0 instead of being incremented to 1
as the claim requires for every input shorter than 4 bytes. -/
theorem C2_counterexample :
    decode_frame_ex readyState [] corruptO = .ok (readyState, []) ∧
    (decode_frame readyState [] corruptO).1.consecutive_decode_errors ≠
      readyState.consecutive_decode_errors + 1 := by
  exact ⟨rfl, by decide⟩

/-- C2 (amended): on a session with an initialized decoder, a nonempty
byte string shorter than 4 bytes makes decode return `[]` and increment
the error counter by exactly 1, raising nothing; the empty byte string
returns `[]` immediately without touching the counter, raising nothing. -/
theorem C2_short_packet (s : ProcState) (b : List Nat) (o : DecOracle)
    (hd : s.decoder = some ()) (hb : b ≠ []) (hlen : b.length < 4) :
    decode_frame_ex s b o =
      .ok ({ s with consecutive_decode_errors :=
        s.consecutive_decode_errors + 1 }, []) ∧
    decode_frame_ex s [] o = .ok (s, []) := by
  have hne : b.isEmpty = false := by
    cases b with
    | nil => exact absurd rfl hb
    | cons x xs => rfl
  refine ⟨?_, rfl⟩
  rw [decode_frame_ex_eq]
  unfold decode_frame decode_frame_body
  simp [hne, hd, hlen]

/-- Witness for C2 (amended) at a concrete 1-byte packet. -/
theorem C2_short_packet_witness :
    readyState.decoder = some () ∧ ([7] : List Nat) ≠ [] ∧
    ([7] : List Nat).length < 4 ∧
    (decode_frame_ex readyState [7] corruptO =
        .ok ({ readyState with consecutive_decode_errors :=
          readyState.consecutive_decode_errors + 1 }, []) ∧
      decode_frame_ex readyState [] corruptO = .ok (readyState, [])) :=
  ⟨rfl, by decide, by decide,
    C2_short_packet readyState [7] corruptO rfl (by decide) (by decide)⟩

/-- C3 counterexample: the producer-side bounded queue of the WebSocket
pipeline does not evict the oldest element on overflow.  Pushing 3 items
into capacity 2 leaves `[1, 2]` — the two OLDEST items — where the claim's
oldest-first eviction would leave `[2, 3]`: the incoming frame is dropped
instead. -/
theorem C3_counterexample :
    pushAll (putDropNewest 2) ([] : List Nat) [1, 2, 3] = [1, 2] ∧
    pushAll (putDropNewest 2) ([] : List Nat) [1, 2, 3] ≠ [2, 3] := by
  decide

/-- C3 (amended): the WebRTC receive queue does evict the oldest element:
pushing `cap + k` items leaves exactly `cap` items, namely the `cap` most
recently pushed (the `k` oldest were evicted); the WebSocket producer
queue, in contrast, leaves a full queue unchanged and drops the incoming
(newest) frame, and neither put blocks the producer. -/
theorem C3_queue_policies (cap k : Nat) (items : List Nat) (hcap : 0 < cap)
    (hlen : items.length = cap + k) :
    pushAll (putEvictOldest cap) [] items = items.drop k ∧
    (pushAll (putEvictOldest cap) [] items).length = cap ∧
    ∀ (q : List Nat) (x : Nat), q.length = cap → putDropNewest cap q x = q := by
  have h := pushAll_evictOldest cap hcap items [] (by simp)
  have h1 : pushAll (putEvictOldest cap) ([] : List Nat) items =
      items.drop k := by
    rw [h]
    simp only [List.nil_append, List.length_nil, Nat.zero_add, hlen]
    congr 1
    omega
  refine ⟨h1, ?_, ?_⟩
  · rw [h1, List.length_drop, hlen]
    omega
  · intro q x hq
    unfold putDropNewest
    rw [if_pos hq]

/-- Witness for C3 (amended) at capacity 2 with 3 pushes. -/
theorem C3_queue_policies_witness :
    0 < 2 ∧ ([10, 20, 30] : List Nat).length = 2 + 1 ∧
    (pushAll (putEvictOldest 2) ([] : List Nat) [10, 20, 30] =
        ([10, 20, 30] : List Nat).drop 1 ∧
      (pushAll (putEvictOldest 2) ([] : List Nat) [10, 20, 30]).length = 2 ∧
      ∀ (q : List Nat) (x : Nat), q.length = 2 → putDropNewest 2 q x = q) :=
  ⟨by decide, by decide,
    C3_queue_policies 2 1 [10, 20, 30] (by decide) (by decide)⟩

/-- C4 counterexample: with `max_retries = 0` the loop guard
`attempt < self.max_retries` is already false on entry, so the transport
makes zero connection attempts and returns WITHOUT raising the permanent
error (`raised = false`), contradicting the claim that for every
`R >= 0` it ends by raising `TransportExhausted`. -/
theorem C4_counterexample :
    runAlwaysFail 0 5 0 0 = some (false, 0, 0) ∧
    runAlwaysFail 0 5 0 0 ≠ some (true, 0, 0) := by
  decide

/-- C4 (amended): with `max_retries = R >= 1` and an always-failing
connection, the transport makes exactly `R` attempts with a
`reconnect_delay` wait between consecutive attempts (`R - 1` waits) and
then raises the permanent error; with `R = 0` it makes no attempt and
returns without raising; with `max_retries = -1` it retries without bound
and never raises the permanent error. -/
theorem C4_reconnect_bound :
    (∀ r : Nat, 1 ≤ r →
      runAlwaysFail ((r : Nat) : Int) r 0 0 = some (true, r, r - 1)) ∧
    runAlwaysFail 0 1 0 0 = some (false, 0, 0) ∧
    (∀ fuel attempt sleeps : Nat,
      runAlwaysFail (-1) fuel attempt sleeps = none) := by
  refine ⟨?_, by decide, runAlwaysFail_unlimited⟩
  intro r hr
  have h := runAlwaysFail_exhausts r r 0 0 (by omega) hr
  simpa using h

/-- Witness for C4 (amended) at `max_retries = 3`. -/
theorem C4_reconnect_bound_witness :
    1 ≤ 3 ∧ runAlwaysFail ((3 : Nat) : Int) 3 0 0 = some (true, 3, 3 - 1) :=
  ⟨by decide, C4_reconnect_bound.1 3 (by decide)⟩

/-- C5 counterexample: `encode_frame` on a session whose encoder is not
initialized returns the plain empty packet list `[]` with the state
unchanged — the very same result a fully initialized session produces
when the engine legitimately emits zero packets.  The not-ready outcome
is therefore a normal packet list, not a distinguishable `EncoderNotReady`
error value, refuting the claim at this concrete input. -/
theorem C5_counterexample :
    encode_frame readyState sampleEncFrame sampleEncONil = (readyState, []) ∧
    encode_frame encReadyState sampleEncFrame sampleEncONil =
      (encReadyState, []) ∧
    (encode_frame readyState sampleEncFrame sampleEncONil).2 =
      (encode_frame encReadyState sampleEncFrame sampleEncONil).2 := by
  exact ⟨by decide, by decide, by decide⟩

/-- C5 (amended): calling encode when `encoder_initialized` is false logs
and returns the empty packet list — a normal list result, not a
distinguishable error — raises nothing, and does not change codec
state. -/
theorem C5_encoder_not_ready (s : ProcState) (f : EncFrame) (o : EncOracle)
    (h : s.encoder_initialized = false) :
    encode_frame_ex s f o = .ok (s, []) := by
  rw [encode_frame_ex_eq]
  unfold encode_frame encode_frame_body
  simp [h]

/-- Witness for C5 (amended) on the decoder-only session. -/
theorem C5_encoder_not_ready_witness :
    readyState.encoder_initialized = false ∧
    encode_frame_ex readyState sampleEncFrame sampleEncO =
      .ok (readyState, []) :=
  ⟨rfl, C5_encoder_not_ready readyState sampleEncFrame sampleEncO rfl⟩

/-- C6: on a decode call in which the engine accepts the packet,
`consecutive_decode_errors` is 0 afterwards and the returned list is
exactly the images of the emitted frames with positive width and height —
frames with a non-positive dimension are dropped.  (The hypothesis that
each emitted frame converts to an array excludes the unrelated
`to_ndarray` failure path, which also drops a frame.) -/
theorem C6_successful_decode (s : ProcState) (b : List Nat) (o : DecOracle)
    (fs : List EmittedFrame)
    (hd : s.decoder = some ()) (hlen : 4 ≤ b.length)
    (he : o.engine = .emits fs)
    (hconv : ∀ f ∈ fs, f.convOk = true) :
    (decode_frame s b o).1.consecutive_decode_errors = 0 ∧
    (decode_frame s b o).2 =
      (fs.filter (fun f =>
        decide (0 < f.img.height) && decide (0 < f.img.width))).map
        (·.img) := by
  have hne : b.isEmpty = false := by
    cases b with
    | nil => simp at hlen
    | cons x xs => rfl
  have hfilter : fs.filter keepFrame =
      fs.filter (fun f =>
        decide (0 < f.img.height) && decide (0 < f.img.width)) := by
    apply List.filter_congr
    intro f hf
    simp [keepFrame, hconv f hf]
  unfold decode_frame decode_frame_body
  simp [hne, hd, Nat.not_lt.mpr hlen, he, hfilter]

/-- Witness for C6 on a concrete emission containing one valid and one
zero-height frame: only the valid image is returned. -/
theorem C6_successful_decode_witness :
    readyState.decoder = some () ∧ 4 ≤ ([0, 0, 0, 0] : List Nat).length ∧
    sampleDecO.engine = .emits sampleFrames ∧
    (∀ f ∈ sampleFrames, f.convOk = true) ∧
    ((decode_frame readyState [0, 0, 0, 0]
        sampleDecO).1.consecutive_decode_errors = 0 ∧
      (decode_frame readyState [0, 0, 0, 0] sampleDecO).2 =
        (sampleFrames.filter (fun f =>
          decide (0 < f.img.height) && decide (0 < f.img.width))).map
          (·.img)) :=
  ⟨rfl, by decide, rfl, by decide,
    C6_successful_decode readyState [0, 0, 0, 0] sampleDecO sampleFrames
      rfl (by decide) rfl (by decide)⟩

/-- C7: the code contradicts the claim — `encode_frame` never assigns to
any session field, so no encode call advances `frame_count`, the counter
used as `av_frame.pts` (line 157).  Evaluated at the failing input: on a
freshly initialized session two successive successful encode calls both
attach pts 0, so the attached timestamps are not strictly increasing. -/
theorem C7_encode_pts_stagnant :
    (∀ (s : ProcState) (f : EncFrame) (o : EncOracle),
      (encode_frame s f o).1 = s) ∧
    encode_pts encReadyState = 0 ∧
    encode_frame encReadyState sampleEncFrame sampleEncO =
      (encReadyState, [[1]]) ∧
    encode_pts (encode_frame encReadyState sampleEncFrame sampleEncO).1 =
      0 := by
  exact ⟨encode_frame_fst, rfl, by decide, by decide⟩

/-- C8: `encoder_initialized` is true only while the encoder is present,
and every encoder-touching operation preserves this, including the failure
paths (`init_encoder` failing at engine creation or at configuration after
the new handle is stored). -/
theorem C8_encoder_invariant (s : ProcState) (h : EncInv s) :
    (∀ o, EncInv (stateOf (init_encoder s o))) ∧
    (∀ f o, EncInv ((encode_frame s f o).1)) ∧
    (∀ o, EncInv ((flush_encoder s o).1)) ∧
    EncInv (cleanup_encoder s) ∧
    EncInv (cleanup s) := by
  refine ⟨?_, ?_, ?_, ?_, ?_⟩
  · intro o
    cases o with
    | ok =>
      intro _
      simp [init_encoder, stateOf]
    | failCreate =>
      by_cases he : s.encoder.isSome
      · intro hi
        simp [init_encoder, stateOf, cleanup_encoder, he] at hi
      · simpa [init_encoder, stateOf, he] using h
    | failConfig =>
      intro _
      simp [init_encoder, stateOf]
  · intro f o
    rw [encode_frame_fst]
    exact h
  · intro o
    rw [flush_encoder_fst]
    exact h
  · by_cases he : s.encoder.isSome
    · intro hi
      simp [cleanup_encoder, he] at hi
    · simpa [cleanup_encoder, he] using h
  · by_cases hd : s.decoder.isSome <;> by_cases he : s.encoder.isSome <;>
      intro hi <;>
      simp [cleanup, cleanup_encoder, cleanup_decoder, hd, he] at hi ⊢ <;>
      exact absurd (h hi) (by simp [he])

/-- Witness for C8 at a fully initialized session. -/
theorem C8_encoder_invariant_witness :
    EncInv encReadyState ∧
    ((∀ o, EncInv (stateOf (init_encoder encReadyState o))) ∧
      (∀ f o, EncInv ((encode_frame encReadyState f o).1)) ∧
      (∀ o, EncInv ((flush_encoder encReadyState o).1)) ∧
      EncInv (cleanup_encoder encReadyState) ∧
      EncInv (cleanup encReadyState)) :=
  ⟨by decide, C8_encoder_invariant encReadyState (by decide)⟩

/-- C9: `cleanup` on any reachable session state (one satisfying the
encoder invariant) leaves no decoder, no encoder, `encoder_initialized`
false, and is idempotent: a second call changes nothing.  Every exception
inside the cleanup path is suppressed or caught, so the modelled operation
is total. -/
theorem C9_cleanup_idempotent (s : ProcState) (h : EncInv s) :
    (cleanup s).decoder = none ∧
    (cleanup s).encoder = none ∧
    (cleanup s).encoder_initialized = false ∧
    cleanup (cleanup s) = cleanup s := by
  obtain ⟨d, e, fc, ei, cde, mx⟩ := s
  unfold EncInv at h
  cases d <;> cases e <;>
    simp_all [cleanup, cleanup_encoder, cleanup_decoder]

/-- Witness for C9 at a mid-stream session. -/
theorem C9_cleanup_idempotent_witness :
    EncInv sessionInUse ∧
    ((cleanup sessionInUse).decoder = none ∧
      (cleanup sessionInUse).encoder = none ∧
      (cleanup sessionInUse).encoder_initialized = false ∧
      cleanup (cleanup sessionInUse) = cleanup sessionInUse) :=
  ⟨by decide, C9_cleanup_idempotent sessionInUse (by decide)⟩

/-- C10: for every session state, input and engine behaviour — including
engine errors of either exception class and a failed decoder
reinitialization — the exception-explicit translations of `decode_frame`
and `encode_frame` return `.ok` of a normal (possibly empty) result: no
exception propagates to the caller. -/
theorem C10_no_exception_escapes (s : ProcState) (b : List Nat)
    (dOr : DecOracle) (f : EncFrame) (eOr : EncOracle) :
    decode_frame_ex s b dOr = .ok (decode_frame s b dOr) ∧
    encode_frame_ex s f eOr = .ok (encode_frame s f eOr) :=
  ⟨decode_frame_ex_eq s b dOr, encode_frame_ex_eq s f eOr⟩

end MetaFace
